import Mathlib

/-!
Verification of the data-collection engine of the tianshou repository
(file src/tianshou/data/collector.py: class Collector and the module-level
helper _batch_set_item).

The Python code is embedded shallowly:

* numpy floating division is modelled by PyVal (a finite rational or one
  of the IEEE special values nan / +inf / -inf that numpy yields, with a
  RuntimeWarning but no exception, when the divisor is zero);
* the runtime type of the n_episode argument matters (the code dispatches
  on np.isscalar in the per-step counting condition and on
  isinstance(..., int) / isinstance(..., list) in the termination test),
  so it is modelled by the inductive NEpisode together with explicit
  Python-truthiness functions;
* the environment layer and the policy are abstracted as functions: for
  iteration t and environment slot i, env t i yields the reward vector
  and the done flag of that step, and pol t i yields the hidden state the
  policy emits; nothing the verified properties speak about depends on
  observations or actions, which are therefore not tracked;
* the synchronous collection loop is a fueled recursion over an explicit
  loop state; per-step rewards are rational vectors (a vector of length
  one plays the role of a scalar reward, which is equivalent for the
  size-based scalarization test of the statistics code);
* the hidden-state reset _reset_state is modelled in its numeric ndarray
  branch (entry set to zero).
-/

namespace Tianshou

/-- Python exceptions surfaced by the modelled code paths of
collector.py.  indexError is raised by out-of-range n_episode[i]
indexing in the counting condition, typeError by indexing a
non-subscriptable n_episode (both at line 303). -/
inductive PyErr where
  | assertionError
  | valueError
  | runtimeErrorAsync
  | scalarAssertionError
  | attributeError
  | indexError
  | typeError
deriving DecidableEq

/-- Result of a numpy floating division: a finite rational, or one of the
IEEE special values produced when the divisor is zero (numpy emits a
RuntimeWarning and yields nan or a signed infinity instead of raising). -/
inductive PyVal where
  | num (q : ℚ)
  | nan
  | pinf
  | ninf
deriving DecidableEq

/-- numpy division a / b: the finite quotient when b is nonzero, otherwise
nan for 0 / 0 and a signed infinity for x / 0 with x nonzero. -/
def pydiv (a b : ℚ) : PyVal :=
  if b = 0 then (if a = 0 then .nan else if 0 < a then .pinf else .ninf)
  else .num (a / b)

/-- Possible runtime types of the n_episode argument of Collector.collect.
The code dispatches on np.isscalar (counting condition, lines 302-303) and
on isinstance(..., int) / isinstance(..., list) (termination test, lines
332-336), so the Python type of the value matters. -/
inductive NEpisode where
  | pyInt (n : Nat)
  | pyList (l : List Nat)
  | npScalar (n : Nat)
  | npArray (l : List Nat)
  | pyTuple (l : List Nat)
deriving DecidableEq

/-- Python truthiness of the optional n_step argument: None and 0 are
falsy, every positive int is truthy. -/
def pyTruthyStep : Option Nat → Bool
  | some (_ + 1) => true
  | _ => false

/-- Python truthiness of the optional n_episode argument as evaluated by
bool(...): None, 0 and an empty list or tuple are falsy; a nonempty list
or tuple is truthy; bool of a numpy array raises ValueError when the
array has more than one element, is False for an empty array and is the
truthiness of the single element otherwise. -/
def pyBool : Option NEpisode → Except PyErr Bool
  | none => .ok false
  | some (.pyInt n) => .ok (decide (n ≠ 0))
  | some (.pyList l) => .ok (!l.isEmpty)
  | some (.npScalar n) => .ok (decide (n ≠ 0))
  | some (.npArray l) =>
      if l.length ≤ 1 then .ok (decide (l.getD 0 0 ≠ 0)) else .error .valueError
  | some (.pyTuple l) => .ok (!l.isEmpty)

/-- np.isscalar applied to the n_episode argument: true for Python ints
and numpy scalar types, false for lists, tuples, arrays and None. -/
def npIsScalar : Option NEpisode → Bool
  | some (.pyInt _) => true
  | some (.npScalar _) => true
  | _ => false

/-- isinstance(n_episode, int): true only for a genuine Python int (numpy
integer scalars are not int subclasses on Python 3). -/
def isInstInt : Option NEpisode → Bool
  | some (.pyInt _) => true
  | _ => false

/-- isinstance(n_episode, list): true only for a genuine Python list. -/
def isInstList : Option NEpisode → Bool
  | some (.pyList _) => true
  | _ => false

/-- Indexing n_episode[i] as used in the counting condition (line 303),
as a total function.  It is only reached when n_episode is indexable,
because the np.isscalar disjunct short-circuits the scalar cases; for an
out-of-range index or a non-indexable value the source raises IndexError
or TypeError — that fallible behaviour is modelled by nEpIndexE below,
and every theorem relying on this total variant stays within range
(indexable targets carrying one component per environment slot). -/
def nEpGetD : Option NEpisode → Nat → Nat
  | some (.pyList l), i => l.getD i 0
  | some (.npArray l), i => l.getD i 0
  | some (.pyTuple l), i => l.getD i 0
  | _, _ => 0

/-- Indexing n_episode[i] with its error behaviour: a list, 1-d array or
tuple yields its i-th component in range and raises IndexError beyond
its length; ints, numpy scalars and None are not subscriptable and raise
TypeError (unreachable in the source thanks to the np.isscalar
short-circuit and the precondition assert). -/
def nEpIndexE : Option NEpisode → Nat → Except PyErr Nat
  | some (.pyList l), i => if i < l.length then .ok (l.getD i 0) else .error .indexError
  | some (.npArray l), i => if i < l.length then .ok (l.getD i 0) else .error .indexError
  | some (.pyTuple l), i => if i < l.length then .ok (l.getD i 0) else .error .indexError
  | _, _ => .error .typeError

/-- Counting condition of lines 302-303 with Python's short-circuit
evaluation and the indexing error path made explicit: n_step or
np.isscalar(n_episode) or episode_count[i] < n_episode[i]. -/
def countCondE (nStep : Option Nat) (nEp : Option NEpisode) (ep : List Nat) (i : Nat) :
    Except PyErr Bool :=
  if pyTruthyStep nStep then .ok true
  else if npIsScalar nEp then .ok true
  else
    match nEpIndexE nEp i with
    | .error e => .error e
    | .ok v => .ok (decide (ep.getD i 0 < v))

/-- Guard under which the counting condition never raises for any
environment slot: scalar targets are protected by the np.isscalar
short-circuit, and indexable targets carry a component for every
environment index; None fails the guard (indexing it would raise
TypeError, unreachable past the assert). -/
def nEpCovers (envNum : Nat) : Option NEpisode → Bool
  | some (.pyInt _) => true
  | some (.npScalar _) => true
  | some (.pyList l) => decide (envNum ≤ l.length)
  | some (.npArray l) => decide (envNum ≤ l.length)
  | some (.pyTuple l) => decide (envNum ≤ l.length)
  | none => false

/-- Element-wise sum of two reward vectors (numpy addition of two arrays
of equal length). -/
def vadd (a b : List ℚ) : List ℚ := a.zipWith (· + ·) b

/-- np.sum(cache.rew, axis=0): element-wise sum of the per-step reward
vectors of one episode cache (never called on an empty cache, because a
transition is appended before the done flag is inspected). -/
def vsum : List (List ℚ) → List ℚ
  | [] => []
  | r :: rs => rs.foldl vadd r

/-- Running reward_total of one collect call: it starts as the Python
float 0.0 (line 221) and becomes a numpy vector after the first episode
is counted, because reward_total += np.sum(...) broadcasts the scalar
zero over the vector. -/
inductive RTotal where
  | zero
  | acc (l : List ℚ)
deriving DecidableEq

/-- reward_total += s for the reward sum s of one counted episode
(line 305). -/
def rtAdd : RTotal → List ℚ → RTotal
  | .zero, s => .acc s
  | .acc a, s => .acc (vadd a s)

/-- Arguments and construction-time configuration of one collect call. -/
structure Cfg where
  envNum : Nat
  nStep : Option Nat
  nEp : Option NEpisode
  random : Bool
  isAsync : Bool
  hasBuffer : Bool
  rewMetric : Option (List PyVal → PyVal)

/-- State of the collection loop.  The field flushed is a history
variable recording every counted (flushed) episode cache, kept regardless
of whether a permanent buffer is configured; it influences no computation
and exists only so that the statistics invariants can be stated. -/
@[ext]
structure CState where
  t : Nat
  stepCount : Nat
  epCount : List Nat
  rewardTotal : RTotal
  caches : List (List (List ℚ))
  buffer : List (List (List ℚ))
  flushed : List (List (List ℚ))
  hidden : List ℤ
  warnings : Nat

/-- Counting condition of lines 302-303: n_step or np.isscalar(n_episode)
or episode_count[i] < n_episode[i]. -/
def countCond (nStep : Option Nat) (nEp : Option NEpisode) (ep : List Nat) (i : Nat) : Bool :=
  pyTruthyStep nStep || npIsScalar nEp || decide (ep.getD i 0 < nEpGetD nEp i)

/-- Body of the per-environment bookkeeping loop (lines 297-310) for one
ready position j with global environment index i: append the transition's
reward to episode cache i (line 300); if the step is terminal, count the
episode when the counting condition holds — increment slot i's counter,
add the cache's element-wise reward sum and its length to the running
totals, and flush the cache into the permanent buffer when one is
configured — then always clear cache i and zero the hidden state at
position j (_reset_state, numeric ndarray branch). -/
def processEntry (cfg : Cfg) (rew : List ℚ) (dn : Bool) (j i : Nat) (s : CState) : CState :=
  let s1 := { s with caches := s.caches.set i (s.caches.getD i [] ++ [rew]) }
  if dn then
    let s2 :=
      if countCond cfg.nStep cfg.nEp s1.epCount i then
        { s1 with
          epCount := s1.epCount.set i (s1.epCount.getD i 0 + 1),
          rewardTotal := rtAdd s1.rewardTotal (vsum (s1.caches.getD i [])),
          stepCount := s1.stepCount + (s1.caches.getD i []).length,
          buffer := if cfg.hasBuffer then s1.buffer ++ [s1.caches.getD i []] else s1.buffer,
          flushed := s1.flushed ++ [s1.caches.getD i []] }
      else s1
    { s2 with caches := s2.caches.set i [], hidden := s2.hidden.set j 0 }
  else s1

/-- One iteration of the collection loop in synchronous mode (ready set =
all environment indices): the time-limit warning check at the top of the
loop (lines 224-228), the policy call producing fresh hidden states
(lines 258-267), one env.step over all environments (line 275), and the
per-environment bookkeeping (lines 297-310).  env t i gives the reward
vector and done flag of environment i at iteration t; pol t i gives the
hidden state the policy emits for it. -/
def stepIter (cfg : Cfg) (env : Nat → Nat → List ℚ × Bool) (pol : Nat → Nat → ℤ)
    (s : CState) : CState :=
  let s1 :=
    { s with warnings :=
        s.warnings + (if 100000 ≤ s.stepCount ∧ s.epCount.sum = 0 then 1 else 0) }
  let s2 := { s1 with hidden := (List.range cfg.envNum).map (fun i => pol s.t i) }
  let s3 := (List.range cfg.envNum).foldl
    (fun u j => processEntry cfg (env s.t j).1 (env s.t j).2 j j u) s2
  { s3 with t := s.t + 1 }

/-- Termination test at the end of each loop iteration (lines 328-337): a
truthy n_step stops once step_count has reached it; otherwise a Python
int n_episode stops once the summed counters reach it, and a Python list
stops once every counter has reached its component.  Any other type of
n_episode matches neither isinstance test. -/
def termCheck (nStep : Option Nat) (nEp : Option NEpisode) (stepCount : Nat) (ep : List Nat) : Bool :=
  match nStep with
  | some (n + 1) => decide (n + 1 ≤ stepCount)
  | _ =>
    match nEp with
    | some (.pyInt m) => decide (m ≤ ep.sum)
    | some (.pyList l) => (List.range ep.length).all (fun i => decide (l.getD i 0 ≤ ep.getD i 0))
    | _ => false

/-- Termination test applied to a loop state. -/
def loopTerm (cfg : Cfg) (s : CState) : Bool :=
  termCheck cfg.nStep cfg.nEp s.stepCount s.epCount

/-- The while-True loop of collect: run one iteration, stop when the
termination test holds at its end, otherwise continue.  The fuel bounds
the number of iterations in the model; none means the loop is still
running after that many iterations. -/
def collectLoop (cfg : Cfg) (env : Nat → Nat → List ℚ × Bool) (pol : Nat → Nat → ℤ) :
    Nat → CState → Option CState
  | 0, _ => none
  | fuel + 1, s =>
    let s1 := stepIter cfg env pol s
    if loopTerm cfg s1 then some s1 else collectLoop cfg env pol fuel s1

/-- State after k iterations of the loop body. -/
def iterSteps (cfg : Cfg) (env : Nat → Nat → List ℚ × Bool) (pol : Nat → Nat → ℤ) :
    Nat → CState → CState
  | 0, s => s
  | k + 1, s => iterSteps cfg env pol k (stepIter cfg env pol s)

/-- Loop-entry state of one collect call (lines 217-222 together with the
collector's freshly reset per-environment data). -/
def initState (cfg : Cfg) : CState :=
  { t := 0, stepCount := 0, epCount := List.replicate cfg.envNum 0,
    rewardTotal := .zero, caches := List.replicate cfg.envNum [],
    buffer := [], flushed := [], hidden := List.replicate cfg.envNum 0,
    warnings := 0 }

/-- reward_avg as a Python value: still a scalar when reward_total is the
initial float 0.0, a numpy vector otherwise. -/
inductive RAvg where
  | sAvg (v : PyVal)
  | vAvg (l : List PyVal)
deriving DecidableEq

/-- reward_total / episode_count (line 346), element-wise for a vector. -/
def rtDiv (r : RTotal) (e : ℚ) : RAvg :=
  match r with
  | .zero => .sAvg (pydiv 0 e)
  | .acc l => .vAvg (l.map (fun q => pydiv q e))

/-- np.asanyarray(reward_avg).size (line 347). -/
def ravgSize : RAvg → Nat
  | .sAvg _ => 1
  | .vAvg l => l.length

/-- Applying the configured reward metric to a non-scalar reward
average; verbatim on the unreachable scalar case. -/
def applyMetric (f : List PyVal → PyVal) : RAvg → RAvg
  | .sAvg v => .sAvg v
  | .vAvg l => .sAvg (f l)

/-- The statistics dict returned by collect (keys n-ep, n-st, v-st, v-ep,
rew, len). -/
structure CStats where
  nEp : ℚ
  nSt : Nat
  vSt : PyVal
  vEp : PyVal
  rew : RAvg
  len : PyVal
deriving DecidableEq

/-- Post-loop statistics (lines 339-356): episode_count is summed over the
slots, the wall-clock duration is floored at 1e-9 seconds, reward_avg is
reward_total / episode_count, and when reward_avg is not a scalar the
reward metric is applied — the default metric (_default_rew_metric,
lines 121-128) asserts that the value is a scalar and raises otherwise,
which is the rewMetric = none case here. -/
def statsOf (cfg : Cfg) (s : CState) (elapsed : ℚ) : Except PyErr CStats :=
  let epc : ℚ := (s.epCount.sum : ℚ)
  let duration : ℚ := max elapsed (1 / 1000000000)
  let ra := rtDiv s.rewardTotal epc
  match (if 1 < ravgSize ra then
           match cfg.rewMetric with
           | none => Except.error PyErr.scalarAssertionError
           | some f => Except.ok (applyMetric f ra)
         else Except.ok ra : Except PyErr RAvg) with
  | .error e => .error e
  | .ok ra2 =>
    .ok { nEp := epc, nSt := s.stepCount,
          vSt := pydiv (s.stepCount : ℚ) duration,
          vEp := pydiv epc duration,
          rew := ra2,
          len := pydiv (s.stepCount : ℚ) epc }

/-- The precondition assert of lines 215-216:
bool((n_step and not n_episode) or (not n_step and n_episode)).  Python
evaluates bool(n_episode) on either path — inside "not n_episode" when
n_step is truthy, and on the value the assert finally tests otherwise —
so a ValueError raised by that bool call (multi-element numpy array)
escapes before the AssertionError decision; the assert passes exactly
when one of the two arguments is truthy and the other falsy. -/
def checkAssert (nStep : Option Nat) (nEp : Option NEpisode) : Except PyErr Unit :=
  match pyBool nEp with
  | .error e => .error e
  | .ok b => if pyTruthyStep nStep = b then .error .assertionError else .ok ()

/-- Outcome of a collect call: a Python exception, a model-level timeout
(the loop is still running when the fuel runs out), or the statistics
dict together with the final loop state. -/
inductive CollectResult where
  | pyErr (e : PyErr)
  | timeout
  | ok (st : CStats) (s : CState)

/-- Collector.collect (lines 183-356): check the configuration assert,
raise RuntimeError when random sampling is requested under asynchronous
simulation (lines 246-253 — in the source this check sits at the top of
the first loop iteration, before any environment step, and its condition
is loop-invariant, so it is hoisted in front of the loop here), then run
the loop and compute the statistics dict. -/
def collect (cfg : Cfg) (env : Nat → Nat → List ℚ × Bool) (pol : Nat → Nat → ℤ)
    (fuel : Nat) (elapsed : ℚ) : CollectResult :=
  match checkAssert cfg.nStep cfg.nEp with
  | .error e => .pyErr e
  | .ok _ =>
    if cfg.random && cfg.isAsync then .pyErr .runtimeErrorAsync
    else
      match collectLoop cfg env pol fuel (initState cfg) with
      | none => .timeout
      | some s =>
        match statsOf cfg s elapsed with
        | .error e => .pyErr e
        | .ok st => .ok st s

/-- Permanent replay buffer as consumed by Collector.sample: sample
returns a data batch and the corresponding indices. -/
structure BufModel where
  sampleFn : Nat → List ℚ × List Nat

/-- Collector-global persistent state: the cumulative counters of
line 109, the per-environment episode caches, the current observations
and the optional permanent buffer. -/
structure CollectorSt where
  collectTime : ℚ
  collectStep : Nat
  collectEpisode : ℚ
  caches : List (List (List ℚ))
  obs : List ℤ
  buffer : Option BufModel

/-- Counter updates performed by a terminating collect call
(lines 341-344): the duration added to collect_time is the elapsed
wall-clock time floored at 1e-9 seconds. -/
def updateCounters (c : CollectorSt) (stepCount : Nat) (epSum : ℚ) (elapsed : ℚ) : CollectorSt :=
  { c with collectStep := c.collectStep + stepCount,
           collectEpisode := c.collectEpisode + epSum,
           collectTime := c.collectTime + max elapsed (1 / 1000000000) }

/-- Collector.reset (lines 130-138) together with reset_env
(lines 149-159): zero the three cumulative counters, clear every
per-environment episode cache and install the fresh observations
returned by a new environment reset. -/
def resetCollector (c : CollectorSt) (envNum : Nat) (freshObs : List ℤ) : CollectorSt :=
  { collectTime := 0, collectStep := 0, collectEpisode := 0,
    caches := List.replicate envNum [], obs := freshObs, buffer := c.buffer }

/-- Collector.sample (lines 358-369): self.buffer.sample(batch_size)
followed by process_fn.  When the collector was built without a buffer,
self.buffer is None and the attribute access raises AttributeError.  The
method performs no write to self, so the collector state is returned
unchanged alongside the result. -/
def sampleMethod (c : CollectorSt) (processFn : List ℚ → List Nat → List ℚ)
    (batchSize : Nat) : Except PyErr (List ℚ) × CollectorSt :=
  match c.buffer with
  | none => (.error .attributeError, c)
  | some b =>
    let r := b.sampleFn batchSize
    (.ok (processFn r.1 r.2), c)

/-- Value of one top-level field of a Batch: a real array of per-slot
items, or a reserved placeholder (an empty sub-Batch). -/
inductive BVal (V : Type) where
  | arr (l : List V)
  | emptyB
deriving DecidableEq

/-- A Batch restricted to its top-level fields: an association list from
field names to values (a Python dict, keys unique). -/
abbrev BRec (V : Type) := List (String × BVal V)

/-- Attribute read with dict semantics: the first binding of the key. -/
def bget {V : Type} (r : BRec V) (k : String) : Option (BVal V) :=
  List.lookup k r

/-- Attribute write with dict semantics: replace the binding of the key,
or append a new binding when the key is absent. -/
def bset {V : Type} : BRec V → String → BVal V → BRec V
  | [], k, v => [(k, v)]
  | (k0, v0) :: t, k, v => if k0 = k then (k, v) :: t else (k0, v0) :: bset t k v

/-- tianshou.data.batch._create_value(template, size): allocate a
container of length size whose elements have the template's shape and
dtype, zero-initialised; mkZero abstracts the zero element of the
template's shape and dtype. -/
def createValue {V : Type} (mkZero : V → V) (template : V) (size : Nat) : List V :=
  List.replicate size (mkZero template)

/-- numpy fancy-indexed assignment a[indices] = vals: positions indices[m]
receive vals[m]. -/
def setIndices {V : Type} (l : List V) (indices : List Nat) (vals : List V) : List V :=
  (indices.zip vals).foldl (fun acc p => acc.set p.1 p.2) l

/-- One step of _batch_set_item for one field (k, v) of the working
record (the parameter called target in the source): a reserved v leaves
the full-width record alone (case 1, line 389); otherwise the full-width
field is first allocated with _create_value from v's first element when
it is missing or reserved (case 2, line 385), and v is then written at
the given indices (line 390). -/
def setItemStep {V : Type} [Inhabited V] (mkZero : V → V) (indices : List Nat) (size : Nat)
    (src : BRec V) (kv : String × BVal V) : BRec V :=
  match kv.2 with
  | .emptyB => src
  | .arr l =>
    let src1 :=
      match bget src kv.1 with
      | some (.arr _) => src
      | _ => bset src kv.1 (.arr (createValue mkZero (l.headD default) size))
    match bget src1 kv.1 with
    | some (.arr cur) => bset src1 kv.1 (.arr (setIndices cur indices l))
    | _ => src1

/-- _batch_set_item(source, indices, target, size) (lines 372-390):
scatter the working record target into the full-width record source at
the given global indices, field by field. -/
def batchSetItem {V : Type} [Inhabited V] (mkZero : V → V) (source : BRec V)
    (indices : List Nat) (target : BRec V) (size : Nat) : BRec V :=
  target.foldl (setItemStep mkZero indices size) source

/-- Fixture: a one-environment configuration collecting two steps, used
by the concrete witnesses. -/
def cfgStep2 : Cfg :=
  { envNum := 1, nStep := some 2, nEp := none, random := false,
    isAsync := false, hasBuffer := true, rewMetric := none }

/-- Fixture: an environment whose single slot ends an episode of length
one with reward vector [1] at every iteration. -/
def envEach : Nat → Nat → List ℚ × Bool := fun _ _ => ([1], true)

/-- Fixture: a policy emitting hidden state 5 everywhere. -/
def polFive : Nat → Nat → ℤ := fun _ _ => 5

/-- Fixture: the configuration of the counterexample to the numpy-array
variant of the untyped n_episode claim. -/
def cfgArr : Cfg :=
  { envNum := 2, nStep := none, nEp := some (.npArray [1, 2]), random := false,
    isAsync := false, hasBuffer := false, rewMetric := none }

/-- Fixture: a two-environment configuration with a numpy scalar episode
target, which the termination test can never match. -/
def cfgScalarNp : Cfg :=
  { envNum := 2, nStep := none, nEp := some (.npScalar 3), random := false,
    isAsync := false, hasBuffer := false, rewMetric := none }

/-- Fixture: a two-environment configuration with a tuple episode target
covering both slots, which the termination test can never match
either. -/
def cfgTuple : Cfg :=
  { envNum := 2, nStep := none, nEp := some (.pyTuple [1, 2]), random := false,
    isAsync := false, hasBuffer := false, rewMetric := none }

/-- Fixture: a one-environment configuration with the all-zero vector
episode target. -/
def cfgZeroVec : Cfg :=
  { envNum := 1, nStep := none, nEp := some (.pyList [0]), random := false,
    isAsync := false, hasBuffer := true, rewMetric := none }

/-- Fixture: the loop state after two iterations of the two-step
collection run. -/
def sStep2 : CState := iterSteps cfgStep2 envEach polFive 2 (initState cfgStep2)

/-- Per-environment bound of the vector episode target: no slot's counter
is above its target component. -/
def epBound (l : List Nat) (s : CState) : Prop :=
  ∀ i, s.epCount.getD i 0 ≤ l.getD i 0

/-- Accounting invariant of one collect call: the running step count is
the summed length of the counted episode caches, and the running reward
total is the accumulated element-wise reward sum of those caches. -/
def flushInv (s : CState) : Prop :=
  s.stepCount = (s.flushed.map List.length).sum ∧
  s.rewardTotal = s.flushed.foldl (fun r c => rtAdd r (vsum c)) RTotal.zero

/-- Projection of the loop state that forgets the diagnostic warning
counter (the code only calls warnings.warn; nothing reads it back). -/
def eraseW (s : CState) : CState := { s with warnings := 0 }

/-- State predicate for an all-zero vector episode target: nothing has
been counted yet. -/
def zeroInv (cfg : Cfg) (s : CState) : Prop :=
  s.epCount = List.replicate cfg.envNum 0 ∧ s.stepCount = 0 ∧
  s.rewardTotal = RTotal.zero ∧ s.flushed = [] ∧ s.buffer = []

theorem getDSetSelf {α : Type} :
    ∀ (l : List α) (i : Nat) (v d : α), i < l.length → (l.set i v).getD i d = v := by
  intro l
  induction l with
  | nil => intro i v d h; simp at h
  | cons a t ih =>
    intro i v d h
    cases i with
    | zero => rfl
    | succ n =>
      have hn : n < t.length := by simpa using h
      simpa using ih n v d hn

theorem getDSetNe {α : Type} :
    ∀ (l : List α) (i k : Nat) (v d : α), i ≠ k → (l.set i v).getD k d = l.getD k d := by
  intro l
  induction l with
  | nil => intro i k v d _; rfl
  | cons a t ih =>
    intro i k v d hik
    cases i with
    | zero =>
      cases k with
      | zero => exact absurd rfl hik
      | succ m => rfl
    | succ n =>
      cases k with
      | zero => rfl
      | succ m =>
        have : n ≠ m := fun he => hik (by rw [he])
        simpa using ih n m v d this

theorem setOfLe {α : Type} :
    ∀ (l : List α) (i : Nat) (v : α), l.length ≤ i → l.set i v = l := by
  intro l
  induction l with
  | nil => intro i v _; rfl
  | cons a t ih =>
    intro i v h
    cases i with
    | zero => simp at h
    | succ n =>
      have : t.length ≤ n := by simpa using h
      simp [List.set, ih n v this]

theorem replicateGetD {α : Type} (a : α) :
    ∀ (n i : Nat), (List.replicate n a).getD i a = a := by
  intro n
  induction n with
  | zero => intro i; rfl
  | succ m ih =>
    intro i
    cases i with
    | zero => rfl
    | succ k => simp [List.replicate_succ, ih k]

theorem foldlInv {α β : Type} (P : α → Prop) (f : α → β → α)
    (h : ∀ a b, P a → P (f a b)) :
    ∀ (l : List β) (a : α), P a → P (l.foldl f a) := by
  intro l
  induction l with
  | nil => intro a ha; exact ha
  | cons b t ih => intro a ha; exact ih (f a b) (h a b ha)

theorem processEntry_warnings (cfg : Cfg) (rew : List ℚ) (dn : Bool) (j i : Nat) (s : CState) :
    (processEntry cfg rew dn j i s).warnings = s.warnings := by
  unfold processEntry
  by_cases hd : dn = true
  · by_cases hc : countCond cfg.nStep cfg.nEp s.epCount i = true
    · simp [hd, hc]
    · simp [hd, hc]
  · simp [hd]

theorem processEntry_t (cfg : Cfg) (rew : List ℚ) (dn : Bool) (j i : Nat) (s : CState) :
    (processEntry cfg rew dn j i s).t = s.t := by
  unfold processEntry
  by_cases hd : dn = true
  · by_cases hc : countCond cfg.nStep cfg.nEp s.epCount i = true
    · simp [hd, hc]
    · simp [hd, hc]
  · simp [hd]

theorem foldProcess_warnings (cfg : Cfg) (env : Nat → Nat → List ℚ × Bool) (t0 : Nat) :
    ∀ (l : List Nat) (u : CState),
      (l.foldl (fun u j => processEntry cfg (env t0 j).1 (env t0 j).2 j j u) u).warnings
        = u.warnings := by
  intro l
  induction l with
  | nil => intro u; rfl
  | cons a r ih =>
    intro u
    rw [List.foldl_cons, ih, processEntry_warnings]

theorem stepIter_warnings (cfg : Cfg) (env : Nat → Nat → List ℚ × Bool)
    (pol : Nat → Nat → ℤ) (s : CState) :
    (stepIter cfg env pol s).warnings
      = s.warnings + (if 100000 ≤ s.stepCount ∧ s.epCount.sum = 0 then 1 else 0) := by
  unfold stepIter
  dsimp only
  rw [foldProcess_warnings]

theorem loopSound (cfg : Cfg) (env : Nat → Nat → List ℚ × Bool) (pol : Nat → Nat → ℤ) :
    ∀ (fuel : Nat) (s s' : CState),
      collectLoop cfg env pol fuel s = some s' →
      ∃ k, k < fuel ∧ s' = iterSteps cfg env pol (k + 1) s ∧
        loopTerm cfg s' = true ∧
        ∀ m, m < k → loopTerm cfg (iterSteps cfg env pol (m + 1) s) = false := by
  intro fuel
  induction fuel with
  | zero => intro s s' h; simp [collectLoop] at h
  | succ n ih =>
    intro s s' h
    unfold collectLoop at h
    by_cases hc : loopTerm cfg (stepIter cfg env pol s) = true
    · rw [if_pos hc] at h
      have hs : stepIter cfg env pol s = s' := Option.some.inj h
      refine ⟨0, Nat.succ_pos n, ?_, ?_, ?_⟩
      · rw [← hs]; rfl
      · rw [← hs]; exact hc
      · intro m hm; exact absurd hm (Nat.not_lt_zero m)
    · rw [if_neg hc] at h
      obtain ⟨k, hk, hs, ht, hall⟩ := ih (stepIter cfg env pol s) s' h
      refine ⟨k + 1, Nat.succ_lt_succ hk, hs, ht, ?_⟩
      intro m hm
      cases m with
      | zero =>
        show loopTerm cfg (iterSteps cfg env pol 0 (stepIter cfg env pol s)) = false
        exact Bool.eq_false_iff.mpr hc
      | succ m' =>
        exact hall m' (Nat.lt_of_succ_lt_succ hm)

theorem loopComplete (cfg : Cfg) (env : Nat → Nat → List ℚ × Bool) (pol : Nat → Nat → ℤ) :
    ∀ (fuel k : Nat) (s : CState), k < fuel →
      loopTerm cfg (iterSteps cfg env pol (k + 1) s) = true →
      (∀ m, m < k → loopTerm cfg (iterSteps cfg env pol (m + 1) s) = false) →
      collectLoop cfg env pol fuel s = some (iterSteps cfg env pol (k + 1) s) := by
  intro fuel
  induction fuel with
  | zero => intro k s hk; exact absurd hk (Nat.not_lt_zero k)
  | succ n ih =>
    intro k s hk ht hall
    unfold collectLoop
    cases k with
    | zero =>
      have ht' : loopTerm cfg (stepIter cfg env pol s) = true := ht
      rw [if_pos ht']
      rfl
    | succ k' =>
      have h0 : loopTerm cfg (stepIter cfg env pol s) = false := hall 0 (Nat.succ_pos k')
      rw [if_neg (by rw [h0]; exact Bool.false_ne_true)]
      have := ih k' (stepIter cfg env pol s) (Nat.lt_of_succ_lt_succ hk) ht
        (fun m hm => hall (m + 1) (Nat.succ_lt_succ hm))
      exact this

theorem processEntry_bound (cfg : Cfg) (l : List Nat)
    (hs : pyTruthyStep cfg.nStep = false) (hEp : cfg.nEp = some (.pyList l))
    (rew : List ℚ) (dn : Bool) (j i : Nat) (s : CState) :
    epBound l s → epBound l (processEntry cfg rew dn j i s) := by
  intro hb
  unfold processEntry
  by_cases hd : dn = true
  · by_cases hc : countCond cfg.nStep cfg.nEp s.epCount i = true
    · have hlt : s.epCount.getD i 0 < l.getD i 0 := by
        have heq : countCond cfg.nStep cfg.nEp s.epCount i
            = decide (s.epCount.getD i 0 < l.getD i 0) := by
          simp only [countCond, hs, hEp, npIsScalar, nEpGetD, Bool.false_or]
        rw [heq] at hc
        exact of_decide_eq_true hc
      simp only [hd, hc, if_true]
      intro i'
      by_cases hii : i = i'
      · subst hii
        by_cases hl : i < s.epCount.length
        · rw [getDSetSelf s.epCount i _ 0 hl]
          exact hlt
        · rw [setOfLe s.epCount i _ (Nat.le_of_not_lt hl)]
          exact hb i
      · rw [getDSetNe s.epCount i i' _ 0 hii]
        exact hb i'
    · simp only [hd, if_true, hc, if_false]
      intro i'
      exact hb i'
  · simp only [hd, if_false]
    intro i'
    exact hb i'

theorem stepIter_bound (cfg : Cfg) (l : List Nat)
    (hs : pyTruthyStep cfg.nStep = false) (hEp : cfg.nEp = some (.pyList l))
    (env : Nat → Nat → List ℚ × Bool) (pol : Nat → Nat → ℤ) (s : CState) :
    epBound l s → epBound l (stepIter cfg env pol s) := by
  intro hb i'
  unfold stepIter
  dsimp only
  exact foldlInv (epBound l)
    (fun u j => processEntry cfg (env s.t j).1 (env s.t j).2 j j u)
    (fun u j hu => processEntry_bound cfg l hs hEp _ _ j j u hu)
    (List.range cfg.envNum)
    { s with hidden := (List.range cfg.envNum).map (fun i => pol s.t i),
             warnings := s.warnings +
               if 100000 ≤ s.stepCount ∧ s.epCount.sum = 0 then 1 else 0 }
    (fun i => hb i) i'

theorem iterSteps_bound (cfg : Cfg) (l : List Nat)
    (hs : pyTruthyStep cfg.nStep = false) (hEp : cfg.nEp = some (.pyList l))
    (env : Nat → Nat → List ℚ × Bool) (pol : Nat → Nat → ℤ) :
    ∀ (k : Nat) (s : CState), epBound l s → epBound l (iterSteps cfg env pol k s) := by
  intro k
  induction k with
  | zero => intro s hb; exact hb
  | succ n ih =>
    intro s hb
    exact ih (stepIter cfg env pol s) (stepIter_bound cfg l hs hEp env pol s hb)

theorem initState_bound (cfg : Cfg) (l : List Nat) : epBound l (initState cfg) := by
  intro i
  simp only [initState]
  rw [replicateGetD]
  exact Nat.zero_le _

theorem processEntry_flushInv (cfg : Cfg) (rew : List ℚ) (dn : Bool) (j i : Nat)
    (s : CState) : flushInv s → flushInv (processEntry cfg rew dn j i s) := by
  intro hb
  unfold processEntry
  by_cases hd : dn = true
  · by_cases hc : countCond cfg.nStep cfg.nEp s.epCount i = true
    · simp only [hd, hc, if_true]
      constructor
      · simp only [List.map_append, List.sum_append, List.map_cons, List.map_nil,
          List.sum_cons, List.sum_nil]
        rw [hb.1]
        ring
      · rw [List.foldl_append, ← hb.2]
        rfl
    · simp only [hd, if_true, hc, if_false]
      exact hb
  · simp only [hd, if_false]
    exact hb

theorem stepIter_flushInv (cfg : Cfg) (env : Nat → Nat → List ℚ × Bool)
    (pol : Nat → Nat → ℤ) (s : CState) : flushInv s → flushInv (stepIter cfg env pol s) := by
  intro hb
  unfold stepIter
  dsimp only
  exact foldlInv flushInv
    (fun u j => processEntry cfg (env s.t j).1 (env s.t j).2 j j u)
    (fun u j hu => processEntry_flushInv cfg _ _ j j u hu)
    (List.range cfg.envNum) _ hb

theorem iterSteps_flushInv (cfg : Cfg) (env : Nat → Nat → List ℚ × Bool)
    (pol : Nat → Nat → ℤ) :
    ∀ (k : Nat) (s : CState), flushInv s → flushInv (iterSteps cfg env pol k s) := by
  intro k
  induction k with
  | zero => intro s hb; exact hb
  | succ n ih =>
    intro s hb
    exact ih (stepIter cfg env pol s) (stepIter_flushInv cfg env pol s hb)

theorem initState_flushInv (cfg : Cfg) : flushInv (initState cfg) := by
  constructor <;> rfl

theorem processEntry_eraseW (cfg : Cfg) (rew : List ℚ) (dn : Bool) (j i : Nat)
    (s1 s2 : CState) (h : eraseW s1 = eraseW s2) :
    processEntry cfg rew dn j i s1
      = { processEntry cfg rew dn j i s2 with warnings := s1.warnings } := by
  have ht : s1.t = s2.t := by
    have h0 := congrArg CState.t h; exact h0
  have hsc : s1.stepCount = s2.stepCount := by
    have h0 := congrArg CState.stepCount h; exact h0
  have hep : s1.epCount = s2.epCount := by
    have h0 := congrArg CState.epCount h; exact h0
  have hrt : s1.rewardTotal = s2.rewardTotal := by
    have h0 := congrArg CState.rewardTotal h; exact h0
  have hca : s1.caches = s2.caches := by
    have h0 := congrArg CState.caches h; exact h0
  have hbu : s1.buffer = s2.buffer := by
    have h0 := congrArg CState.buffer h; exact h0
  have hfl : s1.flushed = s2.flushed := by
    have h0 := congrArg CState.flushed h; exact h0
  have hhi : s1.hidden = s2.hidden := by
    have h0 := congrArg CState.hidden h; exact h0
  unfold processEntry
  by_cases hd : dn = true
  · by_cases hc : countCond cfg.nStep cfg.nEp s1.epCount i = true
    · have hc2 : countCond cfg.nStep cfg.nEp s2.epCount i = true := by
        rw [← hep]; exact hc
      simp [hd, hc, hc2, ht, hsc, hep, hrt, hca, hbu, hfl, hhi]
    · have hc2 : ¬countCond cfg.nStep cfg.nEp s2.epCount i = true := by
        rw [← hep]; exact hc
      simp [hd, hc, hc2, ht, hsc, hep, hrt, hca, hbu, hfl, hhi]
  · simp [hd, ht, hsc, hep, hrt, hca, hbu, hfl, hhi]

theorem foldProcess_eraseW (cfg : Cfg) (env : Nat → Nat → List ℚ × Bool) (t0 : Nat) :
    ∀ (l : List Nat) (u1 u2 : CState), eraseW u1 = eraseW u2 →
      l.foldl (fun u j => processEntry cfg (env t0 j).1 (env t0 j).2 j j u) u1
        = { l.foldl (fun u j => processEntry cfg (env t0 j).1 (env t0 j).2 j j u) u2
            with warnings := u1.warnings } := by
  intro l
  induction l with
  | nil =>
    intro u1 u2 h
    exact congrArg (fun x => ({ x with warnings := u1.warnings } : CState)) h
  | cons a r ih =>
    intro u1 u2 h
    rw [List.foldl_cons, List.foldl_cons]
    have h1 := processEntry_eraseW cfg (env t0 a).1 (env t0 a).2 a a u1 u2 h
    rw [h1]
    have h2 : eraseW ({ processEntry cfg (env t0 a).1 (env t0 a).2 a a u2
          with warnings := u1.warnings })
        = eraseW (processEntry cfg (env t0 a).1 (env t0 a).2 a a u2) := rfl
    rw [ih _ _ h2]

theorem stepIter_warnIndep (cfg : Cfg) (env : Nat → Nat → List ℚ × Bool)
    (pol : Nat → Nat → ℤ) (s : CState) (w : Nat) :
    stepIter cfg env pol { s with warnings := w }
      = { stepIter cfg env pol s with
          warnings := w + (if 100000 ≤ s.stepCount ∧ s.epCount.sum = 0 then 1 else 0) } := by
  have h := foldProcess_eraseW cfg env s.t (List.range cfg.envNum)
    ({ s with hidden := (List.range cfg.envNum).map (fun i => pol s.t i),
              warnings := w +
                (if 100000 ≤ s.stepCount ∧ s.epCount.sum = 0 then 1 else 0) })
    ({ s with hidden := (List.range cfg.envNum).map (fun i => pol s.t i),
              warnings := s.warnings +
                (if 100000 ≤ s.stepCount ∧ s.epCount.sum = 0 then 1 else 0) })
    rfl
  exact congrArg (fun x => ({ x with t := s.t + 1 } : CState)) h

theorem processEntry_zero (cfg : Cfg)
    (h2 : cfg.nStep = none)
    (h3 : cfg.nEp = some (.pyList (List.replicate cfg.envNum 0)))
    (rew : List ℚ) (dn : Bool) (j i : Nat) (s : CState) (hz : zeroInv cfg s) :
    zeroInv cfg (processEntry cfg rew dn j i s) := by
  have e1 : s.epCount.getD i 0 = 0 := by
    rw [hz.1]; exact replicateGetD 0 cfg.envNum i
  have eg : nEpGetD cfg.nEp i = 0 := by
    rw [h3]; exact replicateGetD 0 cfg.envNum i
  have hcc : countCond cfg.nStep cfg.nEp s.epCount i = false := by
    unfold countCond
    rw [h2, eg, e1, h3]
    simp [pyTruthyStep, npIsScalar]
  unfold processEntry
  by_cases hd : dn = true
  · simp only [hd, if_true, hcc]
    simp only [Bool.false_eq_true, if_false]
    exact ⟨hz.1, hz.2.1, hz.2.2.1, hz.2.2.2.1, hz.2.2.2.2⟩
  · simp only [hd, if_false]
    exact ⟨hz.1, hz.2.1, hz.2.2.1, hz.2.2.2.1, hz.2.2.2.2⟩

theorem stepIter_zero (cfg : Cfg) (env : Nat → Nat → List ℚ × Bool) (pol : Nat → Nat → ℤ)
    (h2 : cfg.nStep = none)
    (h3 : cfg.nEp = some (.pyList (List.replicate cfg.envNum 0)))
    (s : CState) (hz : zeroInv cfg s) : zeroInv cfg (stepIter cfg env pol s) := by
  unfold stepIter
  dsimp only
  have hf := foldlInv (zeroInv cfg)
    (fun u j => processEntry cfg (env s.t j).1 (env s.t j).2 j j u)
    (fun u j hu => processEntry_zero cfg h2 h3 _ _ j j u hu)
    (List.range cfg.envNum)
    { s with hidden := (List.range cfg.envNum).map (fun i => pol s.t i),
             warnings := s.warnings +
               if 100000 ≤ s.stepCount ∧ s.epCount.sum = 0 then 1 else 0 }
    ⟨hz.1, hz.2.1, hz.2.2.1, hz.2.2.2.1, hz.2.2.2.2⟩
  exact ⟨hf.1, hf.2.1, hf.2.2.1, hf.2.2.2.1, hf.2.2.2.2⟩

theorem bget_cons_ne {V : Type} (k1 : String) (v1 : BVal V) (t : BRec V) (k : String)
    (h : k1 ≠ k) : bget ((k1, v1) :: t) k = bget t k := by
  have hb : (k == k1) = false := beq_eq_false_iff_ne.mpr (Ne.symm h)
  simp [bget, List.lookup, hb]

theorem bget_cons_self {V : Type} (k : String) (v1 : BVal V) (t : BRec V) :
    bget ((k, v1) :: t) k = some v1 := by
  simp [bget, List.lookup]

theorem bget_bset_self {V : Type} :
    ∀ (r : BRec V) (k : String) (v : BVal V), bget (bset r k v) k = some v := by
  intro r
  induction r with
  | nil => intro k v; simp [bget, bset, List.lookup]
  | cons kv t ih =>
    intro k v
    obtain ⟨k0, v0⟩ := kv
    by_cases hk : k0 = k
    · have hred : bset ((k0, v0) :: t) k v = (k, v) :: t := by
        simp [bset, hk]
      rw [hred]
      exact bget_cons_self k v t
    · simp only [bset, if_neg hk]
      rw [bget_cons_ne k0 v0 _ k hk, ih]

theorem bget_bset_ne {V : Type} :
    ∀ (r : BRec V) (k0 k : String) (v : BVal V), k0 ≠ k →
      bget (bset r k0 v) k = bget r k := by
  intro r
  induction r with
  | nil =>
    intro k0 k v h
    simp only [bset]
    exact bget_cons_ne k0 v [] k h
  | cons kv t ih =>
    intro k0 k v h
    obtain ⟨k1, v1⟩ := kv
    by_cases hk : k1 = k0
    · subst hk
      have hred : bset ((k1, v1) :: t) k1 v = (k1, v) :: t := by
        simp [bset]
      rw [hred, bget_cons_ne k1 v t k h, bget_cons_ne k1 v1 t k h]
    · simp only [bset, if_neg hk]
      by_cases hkk : k1 = k
      · subst hkk
        rw [bget_cons_self, bget_cons_self]
      · rw [bget_cons_ne k1 v1 _ k hkk, bget_cons_ne k1 v1 t k hkk, ih k0 k v h]

theorem setItemStep_ne {V : Type} [Inhabited V] (mkZero : V → V) (indices : List Nat)
    (size : Nat) (src : BRec V) (k0 : String) (v0 : BVal V) (k : String) (h : k0 ≠ k) :
    bget (setItemStep mkZero indices size src (k0, v0)) k = bget src k := by
  cases v0 with
  | emptyB => rfl
  | arr l =>
    unfold setItemStep
    dsimp only
    rcases hb : bget src k0 with _ | vb
    · simp only [hb]
      rw [bget_bset_self]
      rw [bget_bset_ne _ _ _ _ h, bget_bset_ne _ _ _ _ h]
    · cases vb with
      | arr cur =>
        simp only [hb]
        rw [bget_bset_ne _ _ _ _ h]
      | emptyB =>
        simp only [hb]
        rw [bget_bset_self]
        rw [bget_bset_ne _ _ _ _ h, bget_bset_ne _ _ _ _ h]

theorem batchFold_ne {V : Type} [Inhabited V] (mkZero : V → V) (indices : List Nat)
    (size : Nat) (k : String) :
    ∀ (target : BRec V) (src : BRec V), (∀ v, (k, v) ∈ target → v = BVal.emptyB) →
      bget (target.foldl (setItemStep mkZero indices size) src) k = bget src k := by
  intro target
  induction target with
  | nil => intro src _; rfl
  | cons kv t ih =>
    intro src hall
    obtain ⟨k0, v0⟩ := kv
    rw [List.foldl_cons]
    by_cases hk : k0 = k
    · subst hk
      have hv : v0 = BVal.emptyB := hall v0 (List.mem_cons_self _ _)
      subst hv
      exact ih src (fun v hv => hall v (List.mem_cons_of_mem _ hv))
    · rw [ih (setItemStep mkZero indices size src (k0, v0))
          (fun v hv => hall v (List.mem_cons_of_mem _ hv))]
      exact setItemStep_ne mkZero indices size src k0 v0 k hk

theorem setItemStep_at {V : Type} [Inhabited V] (mkZero : V → V) (indices : List Nat)
    (size : Nat) (src : BRec V) (k : String) (l : List V) :
    bget (setItemStep mkZero indices size src (k, BVal.arr l)) k
      = some (BVal.arr (setIndices
          (match bget src k with
           | some (BVal.arr cur) => cur
           | _ => createValue mkZero (l.headD default) size) indices l)) := by
  unfold setItemStep
  dsimp only
  rcases hb : bget src k with _ | vb
  · simp only [hb]
    rw [bget_bset_self]
    rw [bget_bset_self]
  · cases vb with
    | arr cur =>
      simp only [hb]
      rw [bget_bset_self]
    | emptyB =>
      simp only [hb]
      rw [bget_bset_self]
      rw [bget_bset_self]

theorem batchFold_mem {V : Type} [Inhabited V] (mkZero : V → V) (indices : List Nat)
    (size : Nat) (k : String) (l : List V) :
    ∀ (target : BRec V) (src : BRec V), (target.map Prod.fst).Nodup →
      (k, BVal.arr l) ∈ target →
      bget (target.foldl (setItemStep mkZero indices size) src) k
        = some (BVal.arr (setIndices
            (match bget src k with
             | some (BVal.arr cur) => cur
             | _ => createValue mkZero (l.headD default) size) indices l)) := by
  intro target
  induction target with
  | nil => intro src _ hm; exact absurd hm (List.not_mem_nil _)
  | cons kv t ih =>
    intro src hnd hm
    obtain ⟨k0, v0⟩ := kv
    have hnd1 : k0 ∉ t.map Prod.fst := (List.nodup_cons.mp hnd).1
    have hnd2 : (t.map Prod.fst).Nodup := (List.nodup_cons.mp hnd).2
    rw [List.foldl_cons]
    rcases List.mem_cons.mp hm with heq | htail
    · have hk0 : k0 = k := (Prod.ext_iff.mp heq.symm).1
      have hv0 : v0 = BVal.arr l := (Prod.ext_iff.mp heq.symm).2
      subst hk0
      subst hv0
      rw [batchFold_ne mkZero indices size k0 t _
          (fun v hv => absurd (List.mem_map_of_mem Prod.fst hv) hnd1)]
      exact setItemStep_at mkZero indices size src k0 l
    · have hk0 : k0 ≠ k := by
        intro he
        subst he
        exact hnd1 (List.mem_map_of_mem Prod.fst htail)
      rw [ih (setItemStep mkZero indices size src (k0, v0)) hnd2 htail]
      rw [setItemStep_ne mkZero indices size src k0 v0 k hk0]

theorem termCheck_zeroVec (cfg : Cfg)
    (h2 : cfg.nStep = none)
    (h3 : cfg.nEp = some (.pyList (List.replicate cfg.envNum 0)))
    (s : CState) : loopTerm cfg s = true := by
  unfold loopTerm termCheck
  rw [h2, h3]
  simp only [List.all_eq_true, decide_eq_true_eq]
  intro i _
  rw [replicateGetD]
  exact Nat.zero_le _

theorem processEntry_true_count (cfg : Cfg) (rew : List ℚ) (j i : Nat) (s : CState)
    (hi : i < s.caches.length)
    (hc : countCond cfg.nStep cfg.nEp s.epCount i = true) :
    processEntry cfg rew true j i s =
      { t := s.t,
        stepCount := s.stepCount + (s.caches.getD i [] ++ [rew]).length,
        epCount := s.epCount.set i (s.epCount.getD i 0 + 1),
        rewardTotal := rtAdd s.rewardTotal (vsum (s.caches.getD i [] ++ [rew])),
        caches := (s.caches.set i (s.caches.getD i [] ++ [rew])).set i [],
        buffer := if cfg.hasBuffer then s.buffer ++ [s.caches.getD i [] ++ [rew]]
                  else s.buffer,
        flushed := s.flushed ++ [s.caches.getD i [] ++ [rew]],
        hidden := s.hidden.set j 0,
        warnings := s.warnings } := by
  have hgd : (s.caches.set i (s.caches.getD i [] ++ [rew])).getD i []
      = s.caches.getD i [] ++ [rew] := by
    refine getDSetSelf _ _ _ _ hi
  unfold processEntry
  dsimp only
  rw [if_pos (show (true : Bool) = true from rfl), if_pos hc, hgd]

theorem processEntry_true_nocount (cfg : Cfg) (rew : List ℚ) (j i : Nat) (s : CState)
    (hc : countCond cfg.nStep cfg.nEp s.epCount i = false) :
    processEntry cfg rew true j i s =
      { s with caches := (s.caches.set i (s.caches.getD i [] ++ [rew])).set i [],
               hidden := s.hidden.set j 0 } := by
  unfold processEntry
  dsimp only
  rw [if_pos (show (true : Bool) = true from rfl),
    if_neg (show ¬countCond cfg.nStep cfg.nEp s.epCount i = true by
      rw [hc]; exact Bool.false_ne_true)]

/-- Claim C1: in the per-environment bookkeeping of collect, at a ready
position j with global index i whose done flag is true, the episode is
counted exactly when the active target is a (truthy) step count, a scalar
episode count, or a per-environment vector whose component for slot i is
still strictly above slot i's counter; when counted, the slot counter is
incremented by one, the cache's element-wise reward sum is added to the
reward total, its length is added to the step count, and the cache is
flushed into the permanent buffer exactly when one is configured; whether
counted or not, cache i is reset to empty and the hidden state at
position j is reset to zero. -/
theorem collector_c1 (cfg : Cfg) (rew : List ℚ) (j i : Nat) (s : CState)
    (hi : i < s.caches.length) (hj : j < s.hidden.length) (hie : i < s.epCount.length) :
    ((processEntry cfg rew true j i s).caches.getD i [] = []) ∧
    ((processEntry cfg rew true j i s).hidden.getD j 0 = 0) ∧
    (pyTruthyStep cfg.nStep = true → countCond cfg.nStep cfg.nEp s.epCount i = true) ∧
    (npIsScalar cfg.nEp = true → countCond cfg.nStep cfg.nEp s.epCount i = true) ∧
    (∀ L, pyTruthyStep cfg.nStep = false → cfg.nEp = some (.pyList L) →
      (countCond cfg.nStep cfg.nEp s.epCount i = true ↔
        s.epCount.getD i 0 < L.getD i 0)) ∧
    (countCond cfg.nStep cfg.nEp s.epCount i = true →
      (processEntry cfg rew true j i s).epCount.getD i 0 = s.epCount.getD i 0 + 1 ∧
      (processEntry cfg rew true j i s).rewardTotal
        = rtAdd s.rewardTotal (vsum (s.caches.getD i [] ++ [rew])) ∧
      (processEntry cfg rew true j i s).stepCount
        = s.stepCount + (s.caches.getD i [] ++ [rew]).length ∧
      (cfg.hasBuffer = true →
        (processEntry cfg rew true j i s).buffer
          = s.buffer ++ [s.caches.getD i [] ++ [rew]]) ∧
      (cfg.hasBuffer = false →
        (processEntry cfg rew true j i s).buffer = s.buffer) ∧
      (processEntry cfg rew true j i s).flushed
        = s.flushed ++ [s.caches.getD i [] ++ [rew]]) ∧
    (countCond cfg.nStep cfg.nEp s.epCount i = false →
      (processEntry cfg rew true j i s).epCount = s.epCount ∧
      (processEntry cfg rew true j i s).rewardTotal = s.rewardTotal ∧
      (processEntry cfg rew true j i s).stepCount = s.stepCount ∧
      (processEntry cfg rew true j i s).buffer = s.buffer ∧
      (processEntry cfg rew true j i s).flushed = s.flushed) := by
  have hlen : i < (s.caches.set i (s.caches.getD i [] ++ [rew])).length := by
    rw [List.length_set]; exact hi
  refine ⟨?_, ?_, ?_, ?_, ?_, ?_, ?_⟩
  · by_cases hc : countCond cfg.nStep cfg.nEp s.epCount i = true
    · rw [processEntry_true_count cfg rew j i s hi hc]
      exact getDSetSelf _ _ _ _ hlen
    · rw [processEntry_true_nocount cfg rew j i s (Bool.eq_false_iff.mpr hc)]
      exact getDSetSelf _ _ _ _ hlen
  · by_cases hc : countCond cfg.nStep cfg.nEp s.epCount i = true
    · rw [processEntry_true_count cfg rew j i s hi hc]
      exact getDSetSelf _ _ _ _ hj
    · rw [processEntry_true_nocount cfg rew j i s (Bool.eq_false_iff.mpr hc)]
      exact getDSetSelf _ _ _ _ hj
  · intro hstep
    simp [countCond, hstep]
  · intro hsc
    simp [countCond, hsc]
  · intro L hstep hL
    simp [countCond, hstep, hL, npIsScalar, nEpGetD]
  · intro hc
    rw [processEntry_true_count cfg rew j i s hi hc]
    refine ⟨getDSetSelf _ _ _ _ hie, rfl, rfl, ?_, ?_, rfl⟩
    · intro hb; simp [hb]
    · intro hb; simp [hb]
  · intro hc
    rw [processEntry_true_nocount cfg rew j i s hc]
    exact ⟨rfl, rfl, rfl, rfl, rfl⟩

theorem collector_c1_witness :
    (0 < 1 ∧ 0 < 1 ∧ 0 < 1) ∧
    ((processEntry cfgStep2 [1] true 0 0
        { t := 0, stepCount := 0, epCount := [0], rewardTotal := .zero,
          caches := [[]], buffer := [], flushed := [], hidden := [3],
          warnings := 0 }).caches.getD 0 [] = [] ∧
     (processEntry cfgStep2 [1] true 0 0
        { t := 0, stepCount := 0, epCount := [0], rewardTotal := .zero,
          caches := [[]], buffer := [], flushed := [], hidden := [3],
          warnings := 0 }).hidden.getD 0 0 = 0 ∧
     (processEntry cfgStep2 [1] true 0 0
        { t := 0, stepCount := 0, epCount := [0], rewardTotal := .zero,
          caches := [[]], buffer := [], flushed := [], hidden := [3],
          warnings := 0 }).epCount.getD 0 0 = 1) := by
  have h := collector_c1 cfgStep2 [1] 0 0
    { t := 0, stepCount := 0, epCount := [0], rewardTotal := .zero,
      caches := [[]], buffer := [], flushed := [], hidden := [3], warnings := 0 }
    (by decide) (by decide) (by decide)
  refine ⟨⟨Nat.one_pos, Nat.one_pos, Nat.one_pos⟩, h.1, h.2.1, ?_⟩
  have hc : countCond cfgStep2.nStep cfgStep2.nEp
      ({ t := 0, stepCount := 0, epCount := [0], rewardTotal := .zero,
         caches := [[]], buffer := [], flushed := [], hidden := [3],
         warnings := 0 } : CState).epCount 0 = true := by decide
  have h6 := (h.2.2.2.2.2.1 hc).1
  rw [h6]
  rfl

/-- Claim C4: _batch_set_item scatters the working record into the
full-width record: for every field holding a real array in the working
record, when the full-width field is missing or a placeholder, a
full-size container of length size is allocated from the working field's
first element and the working values are then written at the given
indices, and when the full-width field already holds an array the values
are written into it at the indices; every field that is a placeholder in
the working record leaves the corresponding full-width field untouched.
The model is pure, so only the returned full-width record is modified. -/
theorem collector_c4 {V : Type} [Inhabited V] (mkZero : V → V) (source : BRec V)
    (indices : List Nat) (target : BRec V) (size : Nat) (k : String) :
    ((target.map Prod.fst).Nodup →
      ∀ l, (k, BVal.arr l) ∈ target →
        ((bget source k = none ∨ bget source k = some BVal.emptyB →
            bget (batchSetItem mkZero source indices target size) k
              = some (BVal.arr (setIndices
                  (createValue mkZero (l.headD default) size) indices l))) ∧
         (∀ cur, bget source k = some (BVal.arr cur) →
            bget (batchSetItem mkZero source indices target size) k
              = some (BVal.arr (setIndices cur indices l))))) ∧
    ((∀ v, (k, v) ∈ target → v = BVal.emptyB) →
      bget (batchSetItem mkZero source indices target size) k = bget source k) := by
  constructor
  · intro hnd l hm
    constructor
    · intro hsrc
      have h := batchFold_mem mkZero indices size k l target source hnd hm
      rcases hsrc with h0 | h0 <;> rw [h0] at h <;> exact h
    · intro cur hsrc
      have h := batchFold_mem mkZero indices size k l target source hnd hm
      rw [hsrc] at h
      exact h
  · intro hall
    exact batchFold_ne mkZero indices size k target source hall

theorem collector_c4_witness :
    bget (batchSetItem (fun _ => (0 : ℤ)) [("b", BVal.arr [1, 2, 3])] [0, 2]
        [("a", BVal.arr [7, 8]), ("b", BVal.emptyB)] 3) "a"
      = some (BVal.arr [7, 0, 8]) ∧
    bget (batchSetItem (fun _ => (0 : ℤ)) [("b", BVal.arr [1, 2, 3])] [0, 2]
        [("a", BVal.arr [7, 8]), ("b", BVal.emptyB)] 3) "b"
      = some (BVal.arr [1, 2, 3]) := by
  have ha := collector_c4 (fun _ => (0 : ℤ)) [("b", BVal.arr [1, 2, 3])] [0, 2]
      [("a", BVal.arr [7, 8]), ("b", BVal.emptyB)] 3 "a"
  have hb := collector_c4 (fun _ => (0 : ℤ)) [("b", BVal.arr [1, 2, 3])] [0, 2]
      [("a", BVal.arr [7, 8]), ("b", BVal.emptyB)] 3 "b"
  constructor
  · have h1 := (ha.1 (by decide) [7, 8] (List.mem_cons_self _ _)).1 (Or.inl (by decide))
    rw [h1]
    decide
  · have h2 := hb.2 (fun v hv => by
      rcases List.mem_cons.mp hv with h1 | h1
      · have hba : ("b" : String) = "a" := (Prod.ext_iff.mp h1).1
        exact absurd hba (by decide)
      · rcases List.mem_cons.mp h1 with h2 | h2
        · exact (Prod.ext_iff.mp h2).2
        · exact absurd h2 (List.not_mem_nil _))
    rw [h2]
    decide

/-- Claim C2: the collect loop returns exactly at the first iteration
whose end satisfies the termination predicate — a truthy n_step target
stops once the cumulative step count has reached it, a Python-int
n_episode once the summed per-environment counters have reached it, a
Python-list n_episode once every counter has reached its component — and
with a vector target no slot's counter ever exceeds its target component
at any point during collection (the bound is preserved by every
bookkeeping entry, every iteration, and holds along the whole run from
the initial state). -/
theorem collector_c2 (cfg : Cfg) (env : Nat → Nat → List ℚ × Bool) (pol : Nat → Nat → ℤ)
    (fuel : Nat) (l : List Nat) :
    (∀ s', collectLoop cfg env pol fuel (initState cfg) = some s' →
      ∃ k, k < fuel ∧ s' = iterSteps cfg env pol (k + 1) (initState cfg) ∧
        loopTerm cfg s' = true ∧
        ∀ m, m < k →
          loopTerm cfg (iterSteps cfg env pol (m + 1) (initState cfg)) = false) ∧
    (∀ k, k < fuel →
      loopTerm cfg (iterSteps cfg env pol (k + 1) (initState cfg)) = true →
      (∀ m, m < k →
        loopTerm cfg (iterSteps cfg env pol (m + 1) (initState cfg)) = false) →
      collectLoop cfg env pol fuel (initState cfg)
        = some (iterSteps cfg env pol (k + 1) (initState cfg))) ∧
    (∀ n s, cfg.nStep = some (n + 1) →
      (loopTerm cfg s = true ↔ n + 1 ≤ s.stepCount)) ∧
    (∀ m s, cfg.nStep = none → cfg.nEp = some (.pyInt m) →
      (loopTerm cfg s = true ↔ m ≤ s.epCount.sum)) ∧
    (∀ s : CState, cfg.nStep = none → cfg.nEp = some (.pyList l) →
      (loopTerm cfg s = true ↔
        ∀ i, i < s.epCount.length → l.getD i 0 ≤ s.epCount.getD i 0)) ∧
    (pyTruthyStep cfg.nStep = false → cfg.nEp = some (.pyList l) →
      (∀ rew dn j i s, epBound l s → epBound l (processEntry cfg rew dn j i s)) ∧
      (∀ s, epBound l s → epBound l (stepIter cfg env pol s)) ∧
      (∀ k, epBound l (iterSteps cfg env pol k (initState cfg)))) := by
  refine ⟨?_, ?_, ?_, ?_, ?_, ?_⟩
  · intro s' h
    exact loopSound cfg env pol fuel (initState cfg) s' h
  · intro k hk ht hall
    exact loopComplete cfg env pol fuel k (initState cfg) hk ht hall
  · intro n s h
    simp [loopTerm, termCheck, h]
  · intro m s h1 h2
    simp [loopTerm, termCheck, h1, h2]
  · intro s h1 h2
    simp [loopTerm, termCheck, h1, h2, List.all_eq_true, List.mem_range,
      decide_eq_true_eq]
  · intro h1 h2
    refine ⟨?_, ?_, ?_⟩
    · intro rew dn j i s hb
      exact processEntry_bound cfg l h1 h2 rew dn j i s hb
    · intro s hb
      exact stepIter_bound cfg l h1 h2 env pol s hb
    · intro k
      exact iterSteps_bound cfg l h1 h2 env pol k (initState cfg) (initState_bound cfg l)

theorem collector_c2_witness :
    collectLoop cfgStep2 envEach polFive 5 (initState cfgStep2)
      = some (iterSteps cfgStep2 envEach polFive 2 (initState cfgStep2)) := by
  have h := collector_c2 cfgStep2 envEach polFive 5 []
  refine h.2.1 1 (by decide) (by rfl) ?_
  intro m hm
  have hm0 : m = 0 := Nat.lt_one_iff.mp hm
  subst hm0
  rfl

/-- Claim C3: the statistics of a terminating collect call satisfy: the
final step count equals the summed length of all counted (flushed)
episode caches and the final reward total is the accumulated reward sum
of those caches; the returned dict has nSt equal to the final step count,
rew equal to the reward total divided element-wise by nEp — with the
configured scalarization function applied when that mean is not a scalar,
and the default (absent) metric failing loudly with an assertion error —
len equal to nSt divided by nEp, and the duration used for the two rates
floored at the strictly positive epsilon 1e-9. -/
theorem collector_c3 (cfg : Cfg) (env : Nat → Nat → List ℚ × Bool) (pol : Nat → Nat → ℤ)
    (fuel : Nat) (elapsed : ℚ) :
    (∀ s', collectLoop cfg env pol fuel (initState cfg) = some s' →
      s'.stepCount = (s'.flushed.map List.length).sum ∧
      s'.rewardTotal = s'.flushed.foldl (fun r c => rtAdd r (vsum c)) RTotal.zero) ∧
    (∀ s : CState,
      (ravgSize (rtDiv s.rewardTotal ((s.epCount.sum : ℚ))) ≤ 1 →
        statsOf cfg s elapsed = .ok
          { nEp := (s.epCount.sum : ℚ), nSt := s.stepCount,
            vSt := pydiv (s.stepCount : ℚ) (max elapsed (1 / 1000000000)),
            vEp := pydiv (s.epCount.sum : ℚ) (max elapsed (1 / 1000000000)),
            rew := rtDiv s.rewardTotal (s.epCount.sum : ℚ),
            len := pydiv (s.stepCount : ℚ) (s.epCount.sum : ℚ) }) ∧
      (1 < ravgSize (rtDiv s.rewardTotal ((s.epCount.sum : ℚ))) →
        (cfg.rewMetric = none →
          statsOf cfg s elapsed = .error .scalarAssertionError) ∧
        (∀ f, cfg.rewMetric = some f →
          statsOf cfg s elapsed = .ok
            { nEp := (s.epCount.sum : ℚ), nSt := s.stepCount,
              vSt := pydiv (s.stepCount : ℚ) (max elapsed (1 / 1000000000)),
              vEp := pydiv (s.epCount.sum : ℚ) (max elapsed (1 / 1000000000)),
              rew := applyMetric f (rtDiv s.rewardTotal (s.epCount.sum : ℚ)),
              len := pydiv (s.stepCount : ℚ) (s.epCount.sum : ℚ) }))) ∧
    ((1 : ℚ) / 1000000000 ≤ max elapsed (1 / 1000000000) ∧
      (0 : ℚ) < max elapsed (1 / 1000000000)) := by
  refine ⟨?_, ?_, ?_, ?_⟩
  · intro s' h
    obtain ⟨k, _, rfl, _, _⟩ := loopSound cfg env pol fuel (initState cfg) s' h
    exact iterSteps_flushInv cfg env pol (k + 1) (initState cfg) (initState_flushInv cfg)
  · intro s
    constructor
    · intro hsz
      unfold statsOf
      dsimp only
      rw [if_neg (Nat.not_lt.mpr hsz)]
    · intro hsz
      constructor
      · intro hm
        unfold statsOf
        dsimp only
        rw [hm, if_pos hsz]
      · intro f hm
        unfold statsOf
        dsimp only
        rw [hm, if_pos hsz]
  · exact le_max_right _ _
  · exact lt_of_lt_of_le (by norm_num) (le_max_right _ _)

theorem collector_c3_witness :
    (sStep2.stepCount = (sStep2.flushed.map List.length).sum ∧
      sStep2.rewardTotal = sStep2.flushed.foldl (fun r c => rtAdd r (vsum c)) RTotal.zero) ∧
    statsOf cfgStep2 sStep2 0 = .ok
      { nEp := (sStep2.epCount.sum : ℚ), nSt := sStep2.stepCount,
        vSt := pydiv (sStep2.stepCount : ℚ) (max 0 (1 / 1000000000)),
        vEp := pydiv (sStep2.epCount.sum : ℚ) (max 0 (1 / 1000000000)),
        rew := rtDiv sStep2.rewardTotal (sStep2.epCount.sum : ℚ),
        len := pydiv (sStep2.stepCount : ℚ) (sStep2.epCount.sum : ℚ) } := by
  have h := collector_c3 cfgStep2 envEach polFive 5 0
  constructor
  · exact h.1 sStep2 (by rfl)
  · exact (h.2.1 sStep2).1 (by decide)

/-- Claim C5: collect raises before any environment stepping when its
configuration is invalid: when neither of n_step and n_episode is truthy,
or both are, the precondition assert raises AssertionError, and when
random-action mode is requested under asynchronous simulation a
RuntimeError is raised; in each case the result is the error for every
environment and policy, so no environment step is taken and no partial
statistics are returned. -/
theorem collector_c5 (cfg : Cfg) (fuel : Nat) (elapsed : ℚ) :
    (pyTruthyStep cfg.nStep = false → pyBool cfg.nEp = .ok false →
      ∀ env pol, collect cfg env pol fuel elapsed = .pyErr .assertionError) ∧
    (pyTruthyStep cfg.nStep = true → pyBool cfg.nEp = .ok true →
      ∀ env pol, collect cfg env pol fuel elapsed = .pyErr .assertionError) ∧
    (checkAssert cfg.nStep cfg.nEp = .ok () → cfg.random = true → cfg.isAsync = true →
      ∀ env pol, collect cfg env pol fuel elapsed = .pyErr .runtimeErrorAsync) := by
  refine ⟨?_, ?_, ?_⟩
  · intro h1 h2 env pol
    simp [collect, checkAssert, h1, h2]
  · intro h1 h2 env pol
    simp [collect, checkAssert, h1, h2]
  · intro h1 h2 h3 env pol
    simp [collect, h1, h2, h3]

theorem collector_c5_witness :
    pyTruthyStep (none : Option Nat) = false ∧
    pyBool (none : Option NEpisode) = .ok false ∧
    collect { envNum := 1, nStep := none, nEp := none, random := false,
              isAsync := false, hasBuffer := false, rewMetric := none }
        envEach polFive 3 0
      = .pyErr .assertionError := by
  refine ⟨rfl, rfl, ?_⟩
  exact (collector_c5
    { envNum := 1, nStep := none, nEp := none, random := false,
      isAsync := false, hasBuffer := false, rewMetric := none } 3 0).1
    rfl rfl envEach polFive

/-- Claim C6: at the top of every loop iteration, when the accumulated
step count has reached the fixed 100000 threshold while the summed
per-environment episode counters are zero, the warning is emitted (the
warning counter is incremented); it is non-fatal: the rest of the
iteration is independent of the warning counter, and the loop then
continues under the normal termination test alone. -/
theorem collector_c6 (cfg : Cfg) (env : Nat → Nat → List ℚ × Bool) (pol : Nat → Nat → ℤ)
    (s : CState) (h1 : 100000 ≤ s.stepCount) (h2 : s.epCount.sum = 0) :
    (stepIter cfg env pol s).warnings = s.warnings + 1 ∧
    (∀ w, stepIter cfg env pol { s with warnings := w }
        = { stepIter cfg env pol s with warnings := w + 1 }) ∧
    (∀ fuel, collectLoop cfg env pol (fuel + 1) s
        = if loopTerm cfg (stepIter cfg env pol s) = true
          then some (stepIter cfg env pol s)
          else collectLoop cfg env pol fuel (stepIter cfg env pol s)) := by
  refine ⟨?_, ?_, ?_⟩
  · rw [stepIter_warnings, if_pos ⟨h1, h2⟩]
  · intro w
    rw [stepIter_warnIndep, if_pos ⟨h1, h2⟩]
  · intro fuel
    rfl

theorem collector_c6_witness :
    (100000 ≤ (100000 : Nat) ∧ ([0] : List Nat).sum = 0) ∧
    (stepIter cfgStep2 envEach polFive
      { t := 0, stepCount := 100000, epCount := [0], rewardTotal := .zero,
        caches := [[]], buffer := [], flushed := [], hidden := [0],
        warnings := 0 }).warnings = 1 := by
  have h := collector_c6 cfgStep2 envEach polFive
    { t := 0, stepCount := 100000, epCount := [0], rewardTotal := .zero,
      caches := [[]], buffer := [], flushed := [], hidden := [0], warnings := 0 }
    (by decide) rfl
  exact ⟨⟨by decide, rfl⟩, h.1⟩

/-- Claim C7: the collector-global counters collect_time, collect_step
and collect_episode are monotone across terminating collect invocations —
each call adds a non-negative step count, a non-negative episode count
and a duration floored at the strictly positive epsilon 1e-9 — and the
explicit full reset (and only it) zeroes them, additionally emptying
every per-environment episode cache and installing the observations of a
fresh environment reset. -/
theorem collector_c7 (c : CollectorSt) (stepCount : Nat) (epSum elapsed : ℚ)
    (envNum : Nat) (freshObs : List ℤ) (h : 0 ≤ epSum) :
    (updateCounters c stepCount epSum elapsed).collectStep
      = c.collectStep + stepCount ∧
    c.collectStep ≤ (updateCounters c stepCount epSum elapsed).collectStep ∧
    c.collectEpisode ≤ (updateCounters c stepCount epSum elapsed).collectEpisode ∧
    c.collectTime < (updateCounters c stepCount epSum elapsed).collectTime ∧
    (resetCollector c envNum freshObs).collectTime = 0 ∧
    (resetCollector c envNum freshObs).collectStep = 0 ∧
    (resetCollector c envNum freshObs).collectEpisode = 0 ∧
    (resetCollector c envNum freshObs).caches = List.replicate envNum [] ∧
    (resetCollector c envNum freshObs).obs = freshObs := by
  refine ⟨rfl, Nat.le_add_right _ _, ?_, ?_, rfl, rfl, rfl, rfl, rfl⟩
  · exact le_add_of_nonneg_right h
  · have hdur : (0 : ℚ) < max elapsed (1 / 1000000000) :=
      lt_of_lt_of_le (by norm_num) (le_max_right _ _)
    exact lt_add_of_pos_right _ hdur

theorem collector_c7_witness :
    ((0 : ℚ) ≤ 2) ∧
    (updateCounters
      { collectTime := 0, collectStep := 0, collectEpisode := 0, caches := [[]],
        obs := [0], buffer := none } 3 2 1).collectStep = 3 ∧
    (resetCollector
      { collectTime := 5, collectStep := 7, collectEpisode := 2, caches := [[[1]]],
        obs := [4], buffer := none } 1 [9]).collectStep = 0 := by
  have h := collector_c7
    { collectTime := 0, collectStep := 0, collectEpisode := 0, caches := [[]],
      obs := [0], buffer := none } 3 2 1 1 [9] (by norm_num)
  have h2 := collector_c7
    { collectTime := 5, collectStep := 7, collectEpisode := 2, caches := [[[1]]],
      obs := [4], buffer := none } 0 0 1 1 [9] (le_refl 0)
  exact ⟨by norm_num, by rw [h.1], h2.2.2.2.2.2.1⟩

/-- Claim C8 counterexample: with n_episode a two-element numpy array the
collect call does not run forever — bool(n_episode), evaluated by the
precondition assert, raises ValueError before the loop is ever entered,
so the call terminates with that error for this fuel (and any other). -/
theorem collector_c8_counterexample :
    collect cfgArr envEach polFive 1000 0 = .pyErr .valueError := rfl

theorem countCondE_agrees (nStep : Option Nat) (nEp : Option NEpisode)
    (envNum : Nat) (ep : List Nat) (i : Nat)
    (hCov : nEpCovers envNum nEp = true) (hi : i < envNum) :
    countCondE nStep nEp ep i = .ok (countCond nStep nEp ep i) := by
  by_cases hts : pyTruthyStep nStep = true
  · simp [countCondE, countCond, hts]
  · have hts2 : pyTruthyStep nStep = false := Bool.eq_false_iff.mpr hts
    rcases nEp with _ | e
    · simp [nEpCovers] at hCov
    · cases e with
      | pyInt m => simp [countCondE, countCond, hts2, npIsScalar]
      | npScalar m => simp [countCondE, countCond, hts2, npIsScalar]
      | pyList l =>
        have hlen : i < l.length :=
          lt_of_lt_of_le hi (by simpa [nEpCovers] using hCov)
        simp [countCondE, countCond, hts2, npIsScalar, nEpIndexE, nEpGetD, hlen]
      | npArray l =>
        have hlen : i < l.length :=
          lt_of_lt_of_le hi (by simpa [nEpCovers] using hCov)
        simp [countCondE, countCond, hts2, npIsScalar, nEpIndexE, nEpGetD, hlen]
      | pyTuple l =>
        have hlen : i < l.length :=
          lt_of_lt_of_le hi (by simpa [nEpCovers] using hCov)
        simp [countCondE, countCond, hts2, npIsScalar, nEpIndexE, nEpGetD, hlen]

/-- Claim C8 (amended): when n_episode has a type that is neither a
Python int nor a Python list, the termination test matches neither
isinstance branch; when in addition the value passes the truthiness
precondition and covers every environment slot the counting condition
may index — a numpy integer scalar is never indexed thanks to the
np.isscalar short-circuit, while a tuple or one-element array needs a
component for every environment index — the counting condition never
raises (it agrees with its total model on every reachable slot), the
loop never terminates for any amount of fuel and collect times out, with
a numpy scalar still satisfying the per-step counting condition the way
a scalar target does.  Outside that coverage the call stops with an
exception instead of looping: a multi-element numpy array raises
ValueError at the assert (the counterexample) and an indexable target
shorter than the slot index raises IndexError in the counting condition,
shown here on the tuple and array cases. -/
theorem collector_c8_amended (cfg : Cfg) (env : Nat → Nat → List ℚ × Bool)
    (pol : Nat → Nat → ℤ) (elapsed : ℚ)
    (hs : pyTruthyStep cfg.nStep = false)
    (hInt : isInstInt cfg.nEp = false)
    (hList : isInstList cfg.nEp = false)
    (hCov : nEpCovers cfg.envNum cfg.nEp = true)
    (hTru : pyBool cfg.nEp = .ok true)
    (hra : (cfg.random && cfg.isAsync) = false) :
    (∀ ep i, i < cfg.envNum →
      countCondE cfg.nStep cfg.nEp ep i
        = .ok (countCond cfg.nStep cfg.nEp ep i)) ∧
    (∀ fuel s, collectLoop cfg env pol fuel s = none) ∧
    (∀ fuel, collect cfg env pol fuel elapsed = .timeout) ∧
    (∀ n, cfg.nEp = some (.npScalar n) →
      ∀ ep i, countCond cfg.nStep cfg.nEp ep i = true) ∧
    (∀ l ep i, cfg.nEp = some (.pyTuple l) → l.length ≤ i →
      countCondE cfg.nStep cfg.nEp ep i = .error .indexError) ∧
    (∀ l ep i, cfg.nEp = some (.npArray l) → l.length ≤ i →
      countCondE cfg.nStep cfg.nEp ep i = .error .indexError) := by
  have htc : ∀ s, loopTerm cfg s = false := by
    intro s
    rcases hns : cfg.nStep with _ | n
    · rcases hne : cfg.nEp with _ | e
      · simp [loopTerm, termCheck, hns, hne]
      · cases e with
        | pyInt m => rw [hne] at hInt; exact absurd hInt (by simp [isInstInt])
        | pyList L => rw [hne] at hList; exact absurd hList (by simp [isInstList])
        | npScalar m => simp [loopTerm, termCheck, hns, hne]
        | npArray L => simp [loopTerm, termCheck, hns, hne]
        | pyTuple L => simp [loopTerm, termCheck, hns, hne]
    · cases n with
      | zero =>
        rcases hne : cfg.nEp with _ | e
        · simp [loopTerm, termCheck, hns, hne]
        · cases e with
          | pyInt m => rw [hne] at hInt; exact absurd hInt (by simp [isInstInt])
          | pyList L => rw [hne] at hList; exact absurd hList (by simp [isInstList])
          | npScalar m => simp [loopTerm, termCheck, hns, hne]
          | npArray L => simp [loopTerm, termCheck, hns, hne]
          | pyTuple L => simp [loopTerm, termCheck, hns, hne]
      | succ m =>
        rw [hns] at hs
        exact absurd hs (by simp [pyTruthyStep])
  have hloop : ∀ fuel s, collectLoop cfg env pol fuel s = none := by
    intro fuel
    induction fuel with
    | zero => intro s; rfl
    | succ n ih =>
      intro s
      unfold collectLoop
      dsimp only
      rw [htc (stepIter cfg env pol s), if_neg Bool.false_ne_true]
      exact ih (stepIter cfg env pol s)
  have hch : checkAssert cfg.nStep cfg.nEp = .ok () := by
    unfold checkAssert
    rw [hTru]
    dsimp only
    rw [hs, if_neg Bool.false_ne_true]
  refine ⟨?_, hloop, ?_, ?_, ?_, ?_⟩
  · intro ep i hi
    exact countCondE_agrees cfg.nStep cfg.nEp cfg.envNum ep i hCov hi
  · intro fuel
    unfold collect
    rw [hch]
    dsimp only
    rw [hra, if_neg Bool.false_ne_true, hloop fuel (initState cfg)]
  · intro n hn ep i
    simp [countCond, hn, npIsScalar]
  · intro l ep i hl hlen
    simp [countCondE, hs, hl, npIsScalar, nEpIndexE, Nat.not_lt.mpr hlen]
  · intro l ep i hl hlen
    simp [countCondE, hs, hl, npIsScalar, nEpIndexE, Nat.not_lt.mpr hlen]

theorem collector_c8_witness :
    collect cfgScalarNp envEach polFive 7 0 = .timeout ∧
    countCond cfgScalarNp.nStep cfgScalarNp.nEp [0, 0] 0 = true ∧
    countCondE cfgScalarNp.nStep cfgScalarNp.nEp [0, 0] 1
      = .ok (countCond cfgScalarNp.nStep cfgScalarNp.nEp [0, 0] 1) ∧
    collect cfgTuple envEach polFive 7 0 = .timeout ∧
    countCondE cfgTuple.nStep cfgTuple.nEp [0, 0] 5 = .error .indexError := by
  have h := collector_c8_amended cfgScalarNp envEach polFive 0
    rfl rfl rfl rfl rfl rfl
  have h2 := collector_c8_amended cfgTuple envEach polFive 0
    rfl rfl rfl (by decide) rfl rfl
  exact ⟨h.2.2.1 7, h.2.2.2.1 3 rfl [0, 0] 0, h.1 [0, 0] 1 (by decide),
    h2.2.2.1 7, h2.2.2.2.2.1 [1, 2] [0, 0] 5 rfl (by decide)⟩

/-- Claim C9: with an all-zero vector episode target over at least one
environment, the loop body runs exactly once (every environment is
stepped exactly once), no episode is counted, and collect returns the
statistics dict with nEp 0 and nSt 0 whose rew and len come from an
unguarded division by the zero episode count, yielding nan instead of
raising. -/
theorem collector_c9 (cfg : Cfg) (env : Nat → Nat → List ℚ × Bool) (pol : Nat → Nat → ℤ)
    (fuel : Nat) (elapsed : ℚ)
    (h1 : cfg.nStep = none)
    (h2 : cfg.nEp = some (.pyList (List.replicate cfg.envNum 0)))
    (hN : 1 ≤ cfg.envNum)
    (hra : (cfg.random && cfg.isAsync) = false) :
    collectLoop cfg env pol (fuel + 1) (initState cfg)
      = some (stepIter cfg env pol (initState cfg)) ∧
    (stepIter cfg env pol (initState cfg)).epCount = List.replicate cfg.envNum 0 ∧
    (stepIter cfg env pol (initState cfg)).stepCount = 0 ∧
    collect cfg env pol (fuel + 1) elapsed
      = .ok { nEp := 0, nSt := 0, vSt := PyVal.num 0, vEp := PyVal.num 0,
              rew := .sAvg .nan, len := .nan }
          (stepIter cfg env pol (initState cfg)) ∧
    pydiv 0 0 = PyVal.nan := by
  have hz0 : zeroInv cfg (initState cfg) := ⟨rfl, rfl, rfl, rfl, rfl⟩
  have hz1 : zeroInv cfg (stepIter cfg env pol (initState cfg)) :=
    stepIter_zero cfg env pol h1 h2 (initState cfg) hz0
  have hloop : collectLoop cfg env pol (fuel + 1) (initState cfg)
      = some (stepIter cfg env pol (initState cfg)) := by
    unfold collectLoop
    dsimp only
    rw [if_pos (termCheck_zeroVec cfg h1 h2 (stepIter cfg env pol (initState cfg)))]
  have hsum : (stepIter cfg env pol (initState cfg)).epCount.sum = 0 := by
    rw [hz1.1]
    simp
  have hdne : max elapsed ((1 : ℚ) / 1000000000) ≠ 0 :=
    ne_of_gt (lt_of_lt_of_le (by norm_num) (le_max_right _ _))
  have hst : statsOf cfg (stepIter cfg env pol (initState cfg)) elapsed
      = .ok { nEp := 0, nSt := 0, vSt := PyVal.num 0, vEp := PyVal.num 0,
              rew := .sAvg .nan, len := .nan } := by
    have hdne2 : ¬(elapsed ⊔ ((1000000000 : ℚ))⁻¹ = 0) := by simpa using hdne
    unfold statsOf
    dsimp only
    rw [hsum, hz1.2.1, hz1.2.2.1]
    simp [rtDiv, ravgSize, pydiv, hdne, hdne2]
  have hch : checkAssert cfg.nStep cfg.nEp = .ok () := by
    unfold checkAssert
    rw [h1, h2]
    have hie : (List.replicate cfg.envNum (0 : Nat)).isEmpty = false := by
      cases hN' : cfg.envNum with
      | zero => rw [hN'] at hN; exact absurd hN (by decide)
      | succ k => rw [List.replicate_succ]; rfl
    simp [pyBool, pyTruthyStep, hie]
  refine ⟨hloop, hz1.1, hz1.2.1, ?_, rfl⟩
  unfold collect
  rw [hch]
  dsimp only
  rw [hra, if_neg Bool.false_ne_true, hloop]
  dsimp only
  rw [hst]

theorem collector_c9_witness :
    collectLoop cfgZeroVec envEach polFive 4 (initState cfgZeroVec)
      = some (stepIter cfgZeroVec envEach polFive (initState cfgZeroVec)) ∧
    collect cfgZeroVec envEach polFive 4 2
      = .ok { nEp := 0, nSt := 0, vSt := PyVal.num 0, vEp := PyVal.num 0,
              rew := .sAvg .nan, len := .nan }
          (stepIter cfgZeroVec envEach polFive (initState cfgZeroVec)) := by
  have h := collector_c9 cfgZeroVec envEach polFive 3 2 rfl rfl (by decide) rfl
  exact ⟨h.1, h.2.2.2.1⟩

/-- Claim C10: sample on a collector built without a permanent buffer
raises for every batch size — the unconditional self.buffer.sample
attribute access on None raises AttributeError — rather than acting as a
no-op, and the collector's own state is unchanged by the failed call. -/
theorem collector_c10 (c : CollectorSt) (processFn : List ℚ → List Nat → List ℚ)
    (batchSize : Nat) (h : c.buffer = none) :
    sampleMethod c processFn batchSize = (.error .attributeError, c) := by
  unfold sampleMethod
  rw [h]

theorem collector_c10_witness :
    sampleMethod
      { collectTime := 0, collectStep := 0, collectEpisode := 0, caches := [[]],
        obs := [0], buffer := none } (fun b _ => b) 5
      = (.error .attributeError,
         { collectTime := 0, collectStep := 0, collectEpisode := 0, caches := [[]],
           obs := [0], buffer := none }) := by
  exact collector_c10
    { collectTime := 0, collectStep := 0, collectEpisode := 0, caches := [[]],
      obs := [0], buffer := none } (fun b _ => b) 5 rfl

end Tianshou
